import Mathlib

/-!
Verification development for the TOSCA template parser core
(toscaparser): a shallow embedding, in Lean 4, of the exception
collector (toscaparser/common/exception.py), the topology-template
builder for groups and policies (toscaparser/topology_template.py)
and the property-definition schema checks
(toscaparser/elements/property_definition.py), together with theorems
settling the specification claims about those components.

Conventions of the embedding:
  - Python dictionaries become association lists, Python lists become
    Lean lists, and iteration order is list order, as in the source.
  - A TOSCAException instance is a pair of its class (kind) and the
    message computed at construction time from the msg_fmt of the
    class; str(e) returns the message.
  - Raising an exception is modelled with Except: a raised exception
    propagates as the error of the computation, exactly as an uncaught
    Python exception unwinds the call.
  - The collector state (the class attributes exceptions and
    collecting of ExceptionCollector) is threaded explicitly.
  - The stack-trace snapshot stored on a recorded exception carries no
    information the claims mention and is not modelled.
-/

namespace ToscaParser

/-- Exception classes of toscaparser/common/exception.py that the
claims mention. -/
inductive ExcKind where
  | MissingRequiredFieldError
  | UnknownFieldError
  | InvalidSchemaError
  | InvalidGroupTargetException
  deriving DecidableEq, Repr

/-- A TOSCAException instance: its class and the message the
constructor computed from msg_fmt and the keyword arguments. -/
structure Exc where
  kind : ExcKind
  message : String
  deriving DecidableEq, Repr

/-- Models str(e): TOSCAException.__str__ returns self.message. -/
def excStr (e : Exc) : String := e.message

/-- UnknownFieldError with msg_fmt
"%(what)s contains unknown field \x22%(field)s\x22. Refer to the
definition to verify valid values." applied to the two arguments. -/
def unknownFieldError (what field : String) : Exc :=
  ⟨ExcKind.UnknownFieldError,
    what ++ " contains unknown field \"" ++ field ++
      "\". Refer to the definition to verify valid values."⟩

/-- InvalidSchemaError with msg_fmt "%(message)s". -/
def invalidSchemaError (message : String) : Exc :=
  ⟨ExcKind.InvalidSchemaError, message⟩

/-- InvalidGroupTargetException with msg_fmt "\x22%(message)s\x22":
the message argument is wrapped in double quotes. -/
def invalidGroupTargetException (message : String) : Exc :=
  ⟨ExcKind.InvalidGroupTargetException, "\"" ++ message ++ "\""⟩

/-- An error that unwinds a computation: either a raised
TOSCAException, or the AttributeError Python raises when a method such
as lower() is called on a value that lacks it. -/
inductive Err where
  | tosca (e : Exc)
  | attributeError
  deriving DecidableEq, Repr

/-- The mutable class state of ExceptionCollector: the recorded
exception list and the collecting flag. -/
structure CollectorState where
  exceptions : List Exc
  collecting : Bool
  deriving DecidableEq, Repr

/-- ExceptionCollector.contains: scans the stored list and reports
whether some stored exception has the same str() as the argument. -/
def contains (st : CollectorState) (e : Exc) : Bool :=
  st.exceptions.any (fun ex => excStr ex == excStr e)

/-- ExceptionCollector.appendException: while collecting, append the
exception unless one with an equal string representation is already
stored; while not collecting, raise the exception. -/
def appendException (st : CollectorState) (e : Exc) :
    Except Err CollectorState :=
  if st.collecting then
    if contains st e then Except.ok st
    else Except.ok ⟨st.exceptions ++ [e], st.collecting⟩
  else Except.error (Err.tosca e)

/-- The loop shape shared by TopologyTemplate._validate_field and
TopologyTemplate._validate_group_members: for each string of the list,
when the predicate holds, record the exception built from it with
ExceptionCollector.appendException; a raised exception propagates. -/
def appendFor (p : String → Bool) (mk : String → Exc) :
    List String → CollectorState → Except Err CollectorState
  | [], st => Except.ok st
  | x :: rest, st =>
    if p x then
      match appendException st (mk x) with
      | Except.error err => Except.error err
      | Except.ok st1 => appendFor p mk rest st1
    else appendFor p mk rest st

/-- SECTIONS of topology_template.py: the recognized top-level keys. -/
def SECTIONS : List String :=
  ["description", "inputs", "node_templates",
   "relationship_templates", "outputs", "groups",
   "substitution_mappings", "policies"]

/-- TopologyTemplate._validate_field: for every key of the template
mapping that is not in SECTIONS, record an UnknownFieldError with
what set to "Template" and field set to the key. -/
def validate_field (tplKeys : List String) (st : CollectorState) :
    Except Err CollectorState :=
  appendFor (fun name => decide (name ∉ SECTIONS))
    (fun name => unknownFieldError "Template" name) tplKeys st

/-- A built node template, as far as group and policy resolution
reads it: only its name is consulted (node.name). -/
structure NodeTemplate where
  name : String
  deriving DecidableEq, Repr

/-- One entry of the groups section: the group name and the value of
group_tpl.get("members"), which is absent (None) or a list of node
names. -/
structure GroupTpl where
  name : String
  members : Option (List String)
  deriving DecidableEq, Repr

/-- A built Group, as far as the claims read it: its name and the
member_nodes argument its constructor received (None or a list of
resolved node templates). -/
structure Group where
  name : String
  member_nodes : Option (List NodeTemplate)
  deriving DecidableEq, Repr

/-- Python str() of a list of strings, as the percent-s formatting of
a list renders it: each element between single quotes, elements
separated by a comma and a space, the whole between square brackets
(element names contain no quote or escape in the claims' scope). -/
def pyReprStrList (xs : List String) : String :=
  "[" ++ String.intercalate ", "
    (xs.map (fun s => "\x27" ++ s ++ "\x27")) ++ "]"

/-- The message of the InvalidGroupTargetException recorded by
TopologyTemplate._validate_group_members for an unresolved member. -/
def targetMemberMsg (member : String) : String :=
  "Target member \"" ++ member ++ "\" is not found in node_templates"

/-- The message of the InvalidGroupTargetException recorded by
TopologyTemplate._groups for an empty or repeated member list. -/
def memberNodesMsg (member_names : List String) : String :=
  "Member nodes \"" ++ pyReprStrList member_names ++
    "\" should be >= 1 and not repeated"

/-- TopologyTemplate._validate_group_members: build the list of built
node-template names, and for every member not among them record an
InvalidGroupTargetException with the not-found message. -/
def validate_group_members (nts : List NodeTemplate)
    (members : List String) (st : CollectorState) :
    Except Err CollectorState :=
  let node_names := nts.map (fun node => node.name)
  appendFor (fun member => decide (member ∉ node_names))
    (fun member => invalidGroupTargetException (targetMemberMsg member))
    members st

/-- The pure double loop of TopologyTemplate._get_group_members: for
each member name in order, append every built node template whose name
equals it. -/
def resolveMembers (nts : List NodeTemplate) : List String → List NodeTemplate
  | [] => []
  | member :: rest =>
    nts.filter (fun node => node.name == member) ++ resolveMembers nts rest

/-- TopologyTemplate._get_group_members: validate the member names
against the built node templates (recording exceptions), then resolve
each name to the matching node templates. -/
def get_group_members (nts : List NodeTemplate)
    (member_names : List String) (st : CollectorState) :
    Except Err (List NodeTemplate × CollectorState) :=
  match validate_group_members nts member_names st with
  | Except.error err => Except.error err
  | Except.ok st1 => Except.ok (resolveMembers nts member_names, st1)

/-- The condition of the member-list check in TopologyTemplate._groups:
len(member_names) < 1 or len(member_names) != len(set(member_names)). -/
def membersInvalid (member_names : List String) : Prop :=
  member_names.length < 1 ∨ member_names.length ≠ member_names.dedup.length

instance (member_names : List String) : Decidable (membersInvalid member_names) := by
  unfold membersInvalid
  infer_instance

/-- The loop of TopologyTemplate._groups, with the loop-carried
member_nodes variable made explicit: for each group template, when a
members list is present it is validated (recording the repeated-or-
empty exception and leaving member_nodes unchanged on failure, or
resolving the members into member_nodes on success), and the Group is
always constructed from the current member_nodes and appended. -/
def groupsGo (nts : List NodeTemplate) :
    List GroupTpl → Option (List NodeTemplate) → CollectorState →
    Except Err (List Group × CollectorState)
  | [], _, st => Except.ok ([], st)
  | gtpl :: rest, member_nodes, st =>
    match gtpl.members with
    | none =>
      match groupsGo nts rest member_nodes st with
      | Except.error err => Except.error err
      | Except.ok (gs, st') => Except.ok (⟨gtpl.name, member_nodes⟩ :: gs, st')
    | some member_names =>
      if membersInvalid member_names then
        match appendException st
            (invalidGroupTargetException (memberNodesMsg member_names)) with
        | Except.error err => Except.error err
        | Except.ok st1 =>
          match groupsGo nts rest member_nodes st1 with
          | Except.error err => Except.error err
          | Except.ok (gs, st') =>
            Except.ok (⟨gtpl.name, member_nodes⟩ :: gs, st')
      else
        match get_group_members nts member_names st with
        | Except.error err => Except.error err
        | Except.ok (mns, st1) =>
          match groupsGo nts rest (some mns) st1 with
          | Except.error err => Except.error err
          | Except.ok (gs, st') =>
            Except.ok (⟨gtpl.name, some mns⟩ :: gs, st')

/-- TopologyTemplate._groups: member_nodes starts as None, once,
before the loop over the group templates. -/
def groupsBuild (nts : List NodeTemplate) (tpls : List GroupTpl)
    (st : CollectorState) : Except Err (List Group × CollectorState) :=
  groupsGo nts tpls none st

/-- The value the loop-carried member_nodes variable of
TopologyTemplate._groups holds after one iteration: unchanged when the
members list is absent or invalid, the resolved members otherwise. -/
def stepCarry (nts : List NodeTemplate) (mn : Option (List NodeTemplate))
    (t : GroupTpl) : Option (List NodeTemplate) :=
  match t.members with
  | some ms => if membersInvalid ms then mn else some (resolveMembers nts ms)
  | none => mn

/-- The member-node list the i-th constructed Group receives, given
the carried member_nodes value mn on entry to the loop: the carried
value is updated group by group, and the i-th Group receives the value
after its own iteration (which equals the one resolved for the most
recent preceding group with a valid members list when its own list is
absent or invalid). -/
def expectedMN (nts : List NodeTemplate) (mn : Option (List NodeTemplate)) :
    List GroupTpl → Nat → Option (Option (List NodeTemplate))
  | [], _ => none
  | t :: _, 0 => some (stepCarry nts mn t)
  | t :: rest, i + 1 => expectedMN nts (stepCarry nts mn t) rest i

/-- The resolved target objects a Policy is constructed with: Group
references or NodeTemplate references, never mixed in one list. -/
inductive PolicyTargets where
  | groups (gs : List Group)
  | nodeTemplates (ns : List NodeTemplate)
  deriving DecidableEq, Repr

/-- A built Policy, as far as the claims read it: its name, the
targets_type string and the target_objects its constructor received. -/
structure Policy where
  name : String
  targets_type : String
  target_objects : PolicyTargets
  deriving DecidableEq, Repr

/-- One entry of the policies section: the policy name and the value
of policy_tpl.get("targets"), absent (None) or a list of names. -/
structure PolicyTpl where
  name : String
  targets : Option (List String)
  deriving DecidableEq, Repr

/-- TopologyTemplate._get_policy_groups: for each target name in
order, append every already-built group whose name equals it. -/
def get_policy_groups (groups : List Group) : List String → List Group
  | [] => []
  | member :: rest =>
    groups.filter (fun g => g.name == member) ++ get_policy_groups groups rest

/-- The body of the loop of TopologyTemplate._policies for one policy
entry: when a non-empty targets list is present, resolve it against
the built groups; when that yields nothing, resolve the whole list
against node templates instead (recording exceptions for unresolved
names) and type the targets "node_templates"; otherwise type them
"groups". When targets is absent or empty no Policy is built. -/
def buildPolicy (nts : List NodeTemplate) (groups : List Group)
    (policy_name : String) (targets : Option (List String))
    (st : CollectorState) : Except Err (Option Policy × CollectorState) :=
  match targets with
  | none => Except.ok (none, st)
  | some target_list =>
    if 1 ≤ target_list.length then
      let target_objects := get_policy_groups groups target_list
      if target_objects.isEmpty then
        match get_group_members nts target_list st with
        | Except.error err => Except.error err
        | Except.ok (nobjs, st1) =>
          Except.ok (some ⟨policy_name, "node_templates",
            PolicyTargets.nodeTemplates nobjs⟩, st1)
      else
        Except.ok (some ⟨policy_name, "groups",
          PolicyTargets.groups target_objects⟩, st)
    else Except.ok (none, st)

/-- TopologyTemplate._policies: fold buildPolicy over the policy
entries, appending each built Policy. -/
def policiesBuild (nts : List NodeTemplate) (groups : List Group) :
    List PolicyTpl → CollectorState → Except Err (List Policy × CollectorState)
  | [], st => Except.ok ([], st)
  | ptl :: rest, st =>
    match buildPolicy nts groups ptl.name ptl.targets st with
    | Except.error err => Except.error err
    | Except.ok (op, st1) =>
      match policiesBuild nts groups rest st1 with
      | Except.error err => Except.error err
      | Except.ok (ps, st') =>
        Except.ok ((match op with
          | some p => p :: ps
          | none => ps), st')

/-- A Python value as a property-definition schema stores it: a
boolean, a string, or (representative of every non-string,
non-boolean value, which has no lower() method) an integer. -/
inductive PyVal where
  | pybool (b : Bool)
  | pystr (s : String)
  | pyint (n : Int)
  deriving DecidableEq, Repr

/-- Python truthiness of a schema value: False, the empty string and
zero are falsy. -/
def pyTruthy : PyVal → Bool
  | PyVal.pybool b => b
  | PyVal.pystr s => !s.isEmpty
  | PyVal.pyint n => n != 0

/-- PropertyDef.VALID_REQUIRED_VALUES. -/
def VALID_REQUIRED_VALUES : List String := ["true", "false"]

/-- The message of the InvalidSchemaError recorded when the schema
has no type key. -/
def typeMissingMsg (name : String) : String :=
  "Schema definition of \"" ++ name ++ "\" must have a \"type\" attribute."

/-- The message of the InvalidSchemaError recorded when the required
value is a string that is not a valid literal (the joined
VALID_REQUIRED_VALUES render as "true, false"). -/
def requiredInvalidMsg (name value : String) : String :=
  "Schema definition of \"" ++ name ++
    "\" has \"required\" attribute with invalid value \"" ++ value ++
    "\". The value must be one of \"true, false\"."

/-- Run ExceptionCollector.appendException as a statement of the
surrounding method: the updated collector state, plus the raised
exception when appendException raised (the state is then unchanged). -/
def runAppend (st : CollectorState) (e : Exc) : CollectorState × Option Err :=
  match appendException st e with
  | Except.ok st' => (st', none)
  | Except.error err => (st, some err)

/-- PropertyDef.__init__ restricted to its schema validation, for a
present schema mapping: the try/except KeyError around
schema["type"] records an InvalidSchemaError when the type key is
absent; then, when a required key is present and its value is not a
boolean, required.lower() is compared against VALID_REQUIRED_VALUES
(recording an InvalidSchemaError when it is not among them) — on a
value that is neither a boolean nor a string, the lower() call itself
raises AttributeError. A raised exception aborts the constructor with
the collector state reached so far. -/
def PropertyDef.init (name : String) (schema : List (String × PyVal))
    (st : CollectorState) : CollectorState × Option Err :=
  let step1 : CollectorState × Option Err :=
    match schema.lookup "type" with
    | some _ => (st, none)
    | none => runAppend st (invalidSchemaError (typeMissingMsg name))
  match step1 with
  | (st1, some e) => (st1, some e)
  | (st1, none) =>
    match schema.lookup "required" with
    | none => (st1, none)
    | some (PyVal.pybool _) => (st1, none)
    | some (PyVal.pystr s) =>
      if VALID_REQUIRED_VALUES.contains s.toLower then (st1, none)
      else runAppend st1 (invalidSchemaError (requiredInvalidMsg name s))
    | some (PyVal.pyint _) => (st1, some Err.attributeError)

/-- The loop of the PropertyDef.required property: scan the schema
items and return True at the first required key with a truthy value. -/
def requiredLoop : List (String × PyVal) → Bool
  | [] => false
  | (prop_key, prop_value) :: rest =>
    if prop_key == "required" && pyTruthy prop_value then true
    else requiredLoop rest

/-- PropertyDef.required: when the schema is truthy (present and
non-empty), scan it with the loop; otherwise return False. -/
def PropertyDef.required (schema : Option (List (String × PyVal))) : Bool :=
  match schema with
  | none => false
  | some sch => if !sch.isEmpty then requiredLoop sch else false

/-- The collector state after the type-key check of
PropertyDef.__init__, starting from a fresh collecting collector:
unchanged when a type key is present, otherwise holding the recorded
must-have-a-type InvalidSchemaError. -/
def typeCheckedState (name : String) (schema : List (String × PyVal)) :
    CollectorState :=
  if (schema.lookup "type").isSome then ⟨[], true⟩
  else ⟨[invalidSchemaError (typeMissingMsg name)], true⟩

theorem appendException_collecting (st : CollectorState) (e : Exc)
    (h : st.collecting = true) :
    ∃ st', appendException st e = Except.ok st' ∧ st'.collecting = true ∧
      (st'.exceptions = st.exceptions ∨ st'.exceptions = st.exceptions ++ [e]) := by
  unfold appendException
  rw [h]
  by_cases hc : contains st e
  · exact ⟨st, by simp [hc], h, Or.inl rfl⟩
  · exact ⟨⟨st.exceptions ++ [e], true⟩, by simp [hc, h], rfl, Or.inr rfl⟩

theorem list_mid_cancel {α : Type} (l1 l2 : List α) {m m' : List α}
    (h : l1 ++ (m ++ l2) = l1 ++ (m' ++ l2)) : m = m' :=
  List.append_cancel_right (List.append_cancel_left h)

theorem string_mid_cancel (a b : String) {m m' : String}
    (h : a ++ m ++ b = a ++ m' ++ b) : m = m' := by
  have hd : a.data ++ (m.data ++ b.data) = a.data ++ (m'.data ++ b.data) := by
    have := congrArg String.data h
    simpa [String.data_append, List.append_assoc] using this
  exact String.ext (list_mid_cancel a.data b.data hd)

theorem unknownFieldError_str_inj (what : String) {f f' : String}
    (h : excStr (unknownFieldError what f) = excStr (unknownFieldError what f')) :
    f = f' := by
  unfold excStr unknownFieldError at h
  simp only at h
  exact string_mid_cancel
    (what ++ " contains unknown field \"")
    "\". Refer to the definition to verify valid values."
    (by simpa [String.append_assoc] using h)

theorem mem_get_policy_groups (groups : List Group) :
    ∀ (target_list : List String) (g : Group),
    g ∈ get_policy_groups groups target_list ↔
      g ∈ groups ∧ g.name ∈ target_list
  | [], g => by simp [get_policy_groups]
  | member :: rest, g => by
    simp only [get_policy_groups, List.mem_append, List.mem_filter,
      mem_get_policy_groups groups rest, List.mem_cons, beq_iff_eq]
    tauto

/-- C3: while the collecting flag is true, appendException never
raises; the exception is appended exactly when no already-stored
exception has an equal string representation, and the list is left
unchanged exactly when some stored exception (of any kind) has an
equal string representation. -/
theorem appendException_dedup_by_message (st : CollectorState) (e : Exc)
    (h : st.collecting = true) :
    ∃ st', appendException st e = Except.ok st' ∧ st'.collecting = true ∧
      ((∀ ex ∈ st.exceptions, excStr ex ≠ excStr e) →
        st'.exceptions = st.exceptions ++ [e]) ∧
      ((∃ ex ∈ st.exceptions, excStr ex = excStr e) →
        st'.exceptions = st.exceptions) := by
  unfold appendException
  rw [h]
  by_cases hc : contains st e
  · refine ⟨st, by simp [hc], h, ?_, fun _ => rfl⟩
    intro hno
    exfalso
    rcases List.any_eq_true.mp hc with ⟨ex, hex, hbeq⟩
    exact hno ex hex (by simpa using hbeq)
  · refine ⟨⟨st.exceptions ++ [e], true⟩, by simp [hc, h], rfl,
      fun _ => rfl, ?_⟩
    intro hdup
    exfalso
    rcases hdup with ⟨ex, hex, hstr⟩
    exact hc (List.any_eq_true.mpr ⟨ex, hex, by simpa using hstr⟩)

/-- Witness for the C3 theorem: two exceptions of different kinds with
equal messages collapse to a single stored entry. -/
theorem appendException_dedup_by_message_witness :
    ∃ st', appendException
        ⟨[⟨ExcKind.InvalidSchemaError, "boom"⟩], true⟩
        ⟨ExcKind.UnknownFieldError, "boom"⟩ = Except.ok st' ∧
      st'.collecting = true ∧
      ((∀ ex ∈ (⟨[⟨ExcKind.InvalidSchemaError, "boom"⟩], true⟩ :
          CollectorState).exceptions,
        excStr ex ≠ excStr ⟨ExcKind.UnknownFieldError, "boom"⟩) →
        st'.exceptions = (⟨[⟨ExcKind.InvalidSchemaError, "boom"⟩], true⟩ :
          CollectorState).exceptions ++ [⟨ExcKind.UnknownFieldError, "boom"⟩]) ∧
      ((∃ ex ∈ (⟨[⟨ExcKind.InvalidSchemaError, "boom"⟩], true⟩ :
          CollectorState).exceptions,
        excStr ex = excStr ⟨ExcKind.UnknownFieldError, "boom"⟩) →
        st'.exceptions = (⟨[⟨ExcKind.InvalidSchemaError, "boom"⟩], true⟩ :
          CollectorState).exceptions) :=
  appendException_dedup_by_message
    ⟨[⟨ExcKind.InvalidSchemaError, "boom"⟩], true⟩
    ⟨ExcKind.UnknownFieldError, "boom"⟩ rfl

/-- C4: appendException raises exactly the exception it was given if
and only if the collecting flag is false; while collecting it returns
normally and the stored list is either unchanged or extended by
exactly that exception. -/
theorem appendException_raises_iff_not_collecting (st : CollectorState) (e : Exc) :
    (appendException st e = Except.error (Err.tosca e) ↔ st.collecting = false) ∧
    (st.collecting = true →
      ∃ st', appendException st e = Except.ok st' ∧
        (st'.exceptions = st.exceptions ∨
          st'.exceptions = st.exceptions ++ [e])) := by
  constructor
  · constructor
    · intro hraise
      by_contra hcol
      have h : st.collecting = true := by
        cases hcol' : st.collecting
        · exact absurd hcol' hcol
        · rfl
      rcases appendException_collecting st e h with ⟨st', hok, _, _⟩
      rw [hok] at hraise
      exact Except.noConfusion hraise
    · intro hcol
      unfold appendException
      rw [hcol]
      simp
  · intro h
    rcases appendException_collecting st e h with ⟨st', hok, _, hcase⟩
    exact ⟨st', hok, hcase⟩

/-- Witness for the C4 theorem at a concrete state and exception. -/
theorem appendException_raises_iff_not_collecting_witness :
    (appendException ⟨[], false⟩ ⟨ExcKind.InvalidSchemaError, "m"⟩
        = Except.error (Err.tosca ⟨ExcKind.InvalidSchemaError, "m"⟩) ↔
      (⟨[], false⟩ : CollectorState).collecting = false) ∧
    ((⟨[], false⟩ : CollectorState).collecting = true →
      ∃ st', appendException ⟨[], false⟩ ⟨ExcKind.InvalidSchemaError, "m"⟩
          = Except.ok st' ∧
        (st'.exceptions = (⟨[], false⟩ : CollectorState).exceptions ∨
          st'.exceptions = (⟨[], false⟩ : CollectorState).exceptions ++
            [⟨ExcKind.InvalidSchemaError, "m"⟩])) :=
  appendException_raises_iff_not_collecting ⟨[], false⟩
    ⟨ExcKind.InvalidSchemaError, "m"⟩

/-- Running appendFor in collecting mode never raises and keeps the
collecting flag. -/
theorem appendFor_ok (p : String → Bool) (mk : String → Exc) :
    ∀ (xs : List String) (st : CollectorState), st.collecting = true →
    ∃ st', appendFor p mk xs st = Except.ok st' ∧ st'.collecting = true
  | [], st, h => ⟨st, rfl, h⟩
  | x :: rest, st, h => by
    unfold appendFor
    by_cases hp : p x
    · rcases appendException_collecting st (mk x) h with ⟨st1, hap, hc1, _⟩
      rcases appendFor_ok p mk rest st1 hc1 with ⟨st', hrest, hc'⟩
      refine ⟨st', ?_, hc'⟩
      rw [if_pos hp, hap]
      exact hrest
    · rcases appendFor_ok p mk rest st h with ⟨st', hrest, hc'⟩
      exact ⟨st', by rw [if_neg hp, hrest], hc'⟩

/-- In collecting mode, when the exceptions to be recorded are built
from pairwise distinct strings by an injective constructor and none of
their messages is already stored, appendFor appends exactly one
exception per string the predicate selects, in list order. -/
theorem appendFor_spec (p : String → Bool) (mk : String → Exc)
    (hinj : ∀ a b, excStr (mk a) = excStr (mk b) → a = b) :
    ∀ (xs : List String) (st : CollectorState), st.collecting = true →
    (xs.filter p).Nodup →
    (∀ x ∈ xs, p x = true → ∀ ex ∈ st.exceptions, excStr ex ≠ excStr (mk x)) →
    appendFor p mk xs st =
      Except.ok ⟨st.exceptions ++ (xs.filter p).map mk, true⟩
  | [], st, hc, _, _ => by
    cases st with
    | mk exs col =>
      have hc' : col = true := hc
      subst hc'
      show Except.ok (⟨exs, true⟩ : CollectorState) =
        Except.ok (⟨exs ++ (List.filter p []).map mk, true⟩ : CollectorState)
      simp
  | x :: rest, st, hc, hnd, hfresh => by
    unfold appendFor
    by_cases hp : p x
    · rw [if_pos hp]
      have hncont : contains st (mk x) = false := by
        apply List.any_eq_false.mpr
        intro ex hex
        simpa using hfresh x (List.mem_cons_self x rest) hp ex hex
      have hap : appendException st (mk x) =
          Except.ok ⟨st.exceptions ++ [mk x], true⟩ := by
        unfold appendException
        rw [hc, hncont]
        simp
      rw [hap]
      have hfilter : (x :: rest).filter p = x :: rest.filter p := by
        simp [List.filter_cons, hp]
      have hnd' : (rest.filter p).Nodup := by
        rw [hfilter] at hnd
        exact hnd.of_cons
      have hxnot : x ∉ rest.filter p := by
        rw [hfilter] at hnd
        exact (List.nodup_cons.mp hnd).1
      have hfresh' : ∀ y ∈ rest, p y = true →
          ∀ ex ∈ (⟨st.exceptions ++ [mk x], true⟩ :
            CollectorState).exceptions, excStr ex ≠ excStr (mk y) := by
        intro y hy hpy ex hex
        rcases List.mem_append.mp hex with hexl | hexr
        · exact hfresh y (List.mem_cons_of_mem x hy) hpy ex hexl
        · have hexx : ex = mk x := by simpa using hexr
          subst hexx
          intro heq
          have hxy : x = y := hinj x y heq
          exact hxnot (hxy ▸ List.mem_filter.mpr ⟨hy, hpy⟩)
      have hrec := appendFor_spec p mk hinj rest
        ⟨st.exceptions ++ [mk x], true⟩ rfl hnd' hfresh'
      show appendFor p mk rest ⟨st.exceptions ++ [mk x], true⟩ =
        Except.ok ⟨st.exceptions ++
          ((x :: rest).filter p).map mk, true⟩
      rw [hrec]
      simp [hfilter, List.append_assoc]
    · rw [if_neg hp]
      have hfilter : (x :: rest).filter p = rest.filter p := by
        simp [List.filter_cons, hp]
      have hrec := appendFor_spec p mk hinj rest st hc
        (by rw [hfilter] at hnd; exact hnd)
        (fun y hy hpy => hfresh y (List.mem_cons_of_mem x hy) hpy)
      rw [hrec, hfilter]

/-- C6: starting from a fresh collecting collector, validating the
top-level keys of the template mapping records exactly one
UnknownFieldError (container "Template") per key outside SECTIONS, and
records nothing for any recognized key. -/
theorem validate_field_unknown_keys (tplKeys : List String)
    (hnd : tplKeys.Nodup) :
    validate_field tplKeys ⟨[], true⟩ =
      Except.ok ⟨(tplKeys.filter (fun k => decide (k ∉ SECTIONS))).map
        (fun k => unknownFieldError "Template" k), true⟩ ∧
    (∀ k ∈ tplKeys, k ∉ SECTIONS →
      unknownFieldError "Template" k ∈
        (tplKeys.filter (fun k => decide (k ∉ SECTIONS))).map
          (fun k => unknownFieldError "Template" k)) ∧
    (∀ e ∈ (tplKeys.filter (fun k => decide (k ∉ SECTIONS))).map
        (fun k => unknownFieldError "Template" k),
      ∃ k ∈ tplKeys, k ∉ SECTIONS ∧ e = unknownFieldError "Template" k) := by
  refine ⟨?_, ?_, ?_⟩
  · exact appendFor_spec _ _
      (fun a b h => unknownFieldError_str_inj "Template" h)
      tplKeys ⟨[], true⟩ rfl (hnd.filter _) (by simp)
  · intro k hk hks
    exact List.mem_map.mpr ⟨k, List.mem_filter.mpr ⟨hk, by simpa using hks⟩, rfl⟩
  · intro e he
    rcases List.mem_map.mp he with ⟨k, hkf, hke⟩
    rcases List.mem_filter.mp hkf with ⟨hk, hks⟩
    exact ⟨k, hk, by simpa using hks, hke.symm⟩

/-- Witness for the C6 theorem: a template with one recognized and one
unknown key records exactly the UnknownFieldError for the unknown key. -/
theorem validate_field_unknown_keys_witness :
    validate_field ["description", "bad_key"] ⟨[], true⟩ =
      Except.ok ⟨((["description", "bad_key"] : List String).filter
          (fun k => decide (k ∉ SECTIONS))).map
        (fun k => unknownFieldError "Template" k), true⟩ ∧
    (∀ k ∈ (["description", "bad_key"] : List String), k ∉ SECTIONS →
      unknownFieldError "Template" k ∈
        ((["description", "bad_key"] : List String).filter
            (fun k => decide (k ∉ SECTIONS))).map
          (fun k => unknownFieldError "Template" k)) ∧
    (∀ e ∈ ((["description", "bad_key"] : List String).filter
          (fun k => decide (k ∉ SECTIONS))).map
        (fun k => unknownFieldError "Template" k),
      ∃ k ∈ (["description", "bad_key"] : List String), k ∉ SECTIONS ∧
        e = unknownFieldError "Template" k) :=
  validate_field_unknown_keys ["description", "bad_key"] (by decide)

theorem targetMember_str_inj {m m' : String}
    (h : excStr (invalidGroupTargetException (targetMemberMsg m)) =
      excStr (invalidGroupTargetException (targetMemberMsg m'))) : m = m' := by
  unfold excStr invalidGroupTargetException targetMemberMsg at h
  simp only at h
  have h1 : "Target member \"" ++ m ++ "\" is not found in node_templates" =
      "Target member \"" ++ m' ++ "\" is not found in node_templates" :=
    string_mid_cancel "\"" "\"" h
  exact string_mid_cancel "Target member \""
    "\" is not found in node_templates" h1

theorem validate_group_members_ok (nts : List NodeTemplate)
    (ms : List String) (st : CollectorState) (h : st.collecting = true) :
    ∃ st', validate_group_members nts ms st = Except.ok st' ∧
      st'.collecting = true := by
  unfold validate_group_members
  exact appendFor_ok _ _ ms st h

/-- C5: processing one declared group from a fresh collecting
collector. When its members list is empty or repeats a name, exactly
one InvalidGroupTargetException is recorded, whose message quotes the
literal original list; the group is still built from the carried
member_nodes. Otherwise the members are validated against the built
node templates and one InvalidGroupTargetException with the not-found
message is recorded per member that names no node template, in order. -/
theorem group_member_validation (nts : List NodeTemplate) (gname : String)
    (ms : List String) (mn : Option (List NodeTemplate)) :
    (membersInvalid ms →
      groupsGo nts [⟨gname, some ms⟩] mn ⟨[], true⟩ =
        Except.ok ([⟨gname, mn⟩],
          ⟨[invalidGroupTargetException (memberNodesMsg ms)], true⟩)) ∧
    (¬ membersInvalid ms →
      groupsGo nts [⟨gname, some ms⟩] mn ⟨[], true⟩ =
        Except.ok ([⟨gname, some (resolveMembers nts ms)⟩],
          ⟨(ms.filter (fun member =>
              decide (member ∉ nts.map (fun node => node.name)))).map
            (fun member =>
              invalidGroupTargetException (targetMemberMsg member)),
           true⟩)) := by
  constructor
  · intro hinv
    have h1 : groupsGo nts [⟨gname, some ms⟩] mn ⟨[], true⟩ =
        match appendException ⟨[], true⟩
            (invalidGroupTargetException (memberNodesMsg ms)) with
        | Except.error err => Except.error err
        | Except.ok st1 =>
          match groupsGo nts [] mn st1 with
          | Except.error err => Except.error err
          | Except.ok (gs, st') =>
            Except.ok ((⟨gname, mn⟩ : Group) :: gs, st') := by
      simp only [groupsGo]
      rw [if_pos hinv]
    rw [h1]
    rfl
  · intro hvalid
    have hnodup : ms.Nodup := by
      have hlen : ms.length = ms.dedup.length := by
        unfold membersInvalid at hvalid
        push_neg at hvalid
        exact hvalid.2
      have hdedup : ms.dedup = ms :=
        (List.dedup_sublist ms).eq_of_length (by rw [← hlen])
      exact List.dedup_eq_self.mp hdedup
    have hval : validate_group_members nts ms ⟨[], true⟩ =
        Except.ok ⟨(ms.filter (fun member =>
            decide (member ∉ nts.map (fun node => node.name)))).map
          (fun member =>
            invalidGroupTargetException (targetMemberMsg member)), true⟩ := by
      unfold validate_group_members
      exact appendFor_spec _ _
        (fun a b hab => targetMember_str_inj hab)
        ms ⟨[], true⟩ rfl (hnodup.filter _) (by simp)
    have h1 : groupsGo nts [⟨gname, some ms⟩] mn ⟨[], true⟩ =
        match get_group_members nts ms ⟨[], true⟩ with
        | Except.error err => Except.error err
        | Except.ok (mns, st1) =>
          match groupsGo nts [] (some mns) st1 with
          | Except.error err => Except.error err
          | Except.ok (gs, st') =>
            Except.ok ((⟨gname, some mns⟩ : Group) :: gs, st') := by
      simp only [groupsGo]
      rw [if_neg hvalid]
    rw [h1]
    unfold get_group_members
    rw [hval]
    rfl

/-- Witness for the C5 theorem: the repeated list ["a", "a"] records
exactly the repeated-members exception and the group is still built
with the carried (here absent) member nodes. -/
theorem group_member_validation_witness :
    groupsGo [] [⟨"g", some ["a", "a"]⟩] none ⟨[], true⟩ =
      Except.ok ([⟨"g", none⟩],
        ⟨[invalidGroupTargetException (memberNodesMsg ["a", "a"])], true⟩) :=
  (group_member_validation [] "g" ["a", "a"] none).1 (by decide)

/-- The loop of TopologyTemplate._groups with its carried member_nodes
value: in collecting mode it never raises, builds one Group per group
template, and the i-th Group receives exactly the carried value
described by expectedMN. -/
theorem groupsGo_carried (nts : List NodeTemplate) (tpls : List GroupTpl) :
    ∀ (mn : Option (List NodeTemplate)) (st : CollectorState),
    st.collecting = true →
    ∃ gs st', groupsGo nts tpls mn st = Except.ok (gs, st') ∧
      st'.collecting = true ∧ gs.length = tpls.length ∧
      ∀ i, (gs[i]?).map (fun g => g.member_nodes) = expectedMN nts mn tpls i := by
  induction tpls with
  | nil =>
    intro mn st h
    exact ⟨[], st, rfl, h, rfl, fun i => by simp [expectedMN]⟩
  | cons t rest ih =>
    intro mn st h
    cases ht : t.members with
    | none =>
      rcases ih mn st h with ⟨gs, st', hgo, hc', hlen, hmem⟩
      refine ⟨⟨t.name, mn⟩ :: gs, st', ?_, hc', by simp [hlen], ?_⟩
      · simp only [groupsGo, ht]
        rw [hgo]
      · intro i
        cases i with
        | zero => simp [expectedMN, stepCarry, ht]
        | succ i => simpa [expectedMN, stepCarry, ht] using hmem i
    | some ms =>
      by_cases hinv : membersInvalid ms
      · rcases appendException_collecting st
          (invalidGroupTargetException (memberNodesMsg ms)) h with
          ⟨st1, hap, hc1, _⟩
        rcases ih mn st1 hc1 with ⟨gs, st', hgo, hc', hlen, hmem⟩
        refine ⟨⟨t.name, mn⟩ :: gs, st', ?_, hc', by simp [hlen], ?_⟩
        · simp only [groupsGo, ht]
          rw [if_pos hinv, hap]
          show (match groupsGo nts rest mn st1 with
            | Except.error err => Except.error err
            | Except.ok (gs, st') =>
              Except.ok ((⟨t.name, mn⟩ : Group) :: gs, st')) =
            Except.ok ((⟨t.name, mn⟩ : Group) :: gs, st')
          rw [hgo]
        · intro i
          cases i with
          | zero => simp [expectedMN, stepCarry, ht, hinv]
          | succ i => simpa [expectedMN, stepCarry, ht, hinv] using hmem i
      · rcases validate_group_members_ok nts ms st h with ⟨st1, hval, hc1⟩
        rcases ih (some (resolveMembers nts ms)) st1 hc1 with
          ⟨gs, st', hgo, hc', hlen, hmem⟩
        refine ⟨⟨t.name, some (resolveMembers nts ms)⟩ :: gs, st', ?_, hc',
          by simp [hlen], ?_⟩
        · simp only [groupsGo, ht]
          rw [if_neg hinv]
          unfold get_group_members
          rw [hval]
          show (match groupsGo nts rest (some (resolveMembers nts ms)) st1 with
            | Except.error err => Except.error err
            | Except.ok (gs, st') =>
              Except.ok ((⟨t.name, some (resolveMembers nts ms)⟩ : Group) ::
                gs, st')) =
            Except.ok ((⟨t.name, some (resolveMembers nts ms)⟩ : Group) ::
              gs, st')
          rw [hgo]
        · intro i
          cases i with
          | zero => simp [expectedMN, stepCarry, ht, hinv]
          | succ i => simpa [expectedMN, stepCarry, ht, hinv] using hmem i

/-- C9: member_nodes is initialized once (to None) before the loop of
TopologyTemplate._groups, so every declared group is constructed and
appended, and a group whose members list is absent or fails the
non-empty-and-duplicate-free validation receives the carried value:
the list resolved for the most recent preceding group with a valid
members list, or None when no such group precedes it (the carried
value expectedMN describes). -/
theorem groups_stale_member_nodes (nts : List NodeTemplate)
    (tpls : List GroupTpl) (st : CollectorState) (h : st.collecting = true) :
    ∃ gs st', groupsBuild nts tpls st = Except.ok (gs, st') ∧
      gs.length = tpls.length ∧
      ∀ i, (gs[i]?).map (fun g => g.member_nodes) = expectedMN nts none tpls i := by
  rcases groupsGo_carried nts tpls none st h with ⟨gs, st', hgo, _, hlen, hmem⟩
  exact ⟨gs, st', hgo, hlen, hmem⟩

/-- Witness for the C9 theorem: after a valid group g1 whose member
n1 resolves, the invalid (empty-members) group g2 is still built and
receives the list resolved for g1. -/
theorem groups_stale_member_nodes_witness :
    ∃ gs st', groupsBuild [⟨"n1"⟩]
        [⟨"g1", some ["n1"]⟩, ⟨"g2", some []⟩] ⟨[], true⟩ =
        Except.ok (gs, st') ∧
      gs.length = ([⟨"g1", some ["n1"]⟩, ⟨"g2", some []⟩] :
        List GroupTpl).length ∧
      ∀ i, (gs[i]?).map (fun g => g.member_nodes) =
        expectedMN [⟨"n1"⟩] none
          [⟨"g1", some ["n1"]⟩, ⟨"g2", some []⟩] i :=
  groups_stale_member_nodes [⟨"n1"⟩]
    [⟨"g1", some ["n1"]⟩, ⟨"g2", some []⟩] ⟨[], true⟩ rfl

/-- C1: when at least one target name matches an existing group by
name, the built Policy has targets_type "groups" and its target list
is exactly the groups whose name occurs in the target list (names
matching no group are dropped and no exception is recorded); only
when no name matches any group is the whole list resolved against
node templates, with targets_type "node_templates". -/
theorem policy_group_target_resolution (nts : List NodeTemplate)
    (groups : List Group) (pname : String) (target_list : List String)
    (st : CollectorState) (hcol : st.collecting = true)
    (hne : target_list ≠ []) :
    ((∃ t ∈ target_list, ∃ g ∈ groups, g.name = t) →
      buildPolicy nts groups pname (some target_list) st =
        Except.ok (some ⟨pname, "groups",
          PolicyTargets.groups (get_policy_groups groups target_list)⟩, st) ∧
      (∀ g : Group, g ∈ get_policy_groups groups target_list ↔
        g ∈ groups ∧ g.name ∈ target_list)) ∧
    ((∀ t ∈ target_list, ∀ g ∈ groups, g.name ≠ t) →
      ∃ st', buildPolicy nts groups pname (some target_list) st =
        Except.ok (some ⟨pname, "node_templates",
          PolicyTargets.nodeTemplates (resolveMembers nts target_list)⟩, st')) := by
  have hlen : 1 ≤ target_list.length := by
    cases target_list with
    | nil => exact absurd rfl hne
    | cons a l => simp
  constructor
  · intro hmatch
    rcases hmatch with ⟨t, ht, g, hg, hname⟩
    have hmem : g ∈ get_policy_groups groups target_list :=
      (mem_get_policy_groups groups target_list g).mpr ⟨hg, hname ▸ ht⟩
    have hnonempty : (get_policy_groups groups target_list).isEmpty = false := by
      cases hgp : get_policy_groups groups target_list with
      | nil => rw [hgp] at hmem; exact absurd hmem (List.not_mem_nil g)
      | cons a l => rfl
    refine ⟨?_, mem_get_policy_groups groups target_list⟩
    simp only [buildPolicy]
    rw [if_pos hlen]
    simp only [hnonempty]
    rfl
  · intro hnomatch
    have hempty : get_policy_groups groups target_list = [] := by
      apply List.eq_nil_iff_forall_not_mem.mpr
      intro g hmem
      rcases (mem_get_policy_groups groups target_list g).mp hmem with ⟨hg, hname⟩
      exact hnomatch g.name hname g hg rfl
    rcases validate_group_members_ok nts target_list st hcol with ⟨st1, hval, _⟩
    refine ⟨st1, ?_⟩
    simp only [buildPolicy]
    rw [if_pos hlen]
    simp only [hempty]
    unfold get_group_members
    rw [hval]
    rfl

/-- Witness for the C1 theorem: target list [g1, nope] against one
group g1 resolves as targets_type "groups" with exactly that group. -/
theorem policy_group_target_resolution_witness :
    ((∃ t ∈ (["g1", "nope"] : List String), ∃ g ∈ [(⟨"g1", none⟩ : Group)],
        g.name = t) →
      buildPolicy [] [⟨"g1", none⟩] "p" (some ["g1", "nope"]) ⟨[], true⟩ =
        Except.ok (some ⟨"p", "groups",
          PolicyTargets.groups (get_policy_groups [⟨"g1", none⟩]
            ["g1", "nope"])⟩, ⟨[], true⟩) ∧
      (∀ g : Group, g ∈ get_policy_groups [⟨"g1", none⟩] ["g1", "nope"] ↔
        g ∈ [(⟨"g1", none⟩ : Group)] ∧ g.name ∈ (["g1", "nope"] : List String))) ∧
    ((∀ t ∈ (["g1", "nope"] : List String), ∀ g ∈ [(⟨"g1", none⟩ : Group)],
        g.name ≠ t) →
      ∃ st', buildPolicy [] [⟨"g1", none⟩] "p" (some ["g1", "nope"]) ⟨[], true⟩ =
        Except.ok (some ⟨"p", "node_templates",
          PolicyTargets.nodeTemplates (resolveMembers [] ["g1", "nope"])⟩,
          st')) :=
  policy_group_target_resolution [] [⟨"g1", none⟩] "p" ["g1", "nope"]
    ⟨[], true⟩ rfl (by decide)

/-- C2 counterexample: with group g1 and node template n1, the policy
target list [g1, n1] is NOT resolved against node templates: the
group phase keeps its partial match, the built Policy has
targets_type "groups" and target list [g1] (n1 is dropped). -/
theorem policy_mixed_targets_counterexample :
    buildPolicy [⟨"n1"⟩] [⟨"g1", none⟩] "p" (some ["g1", "n1"]) ⟨[], true⟩ =
      Except.ok (some ⟨"p", "groups",
        PolicyTargets.groups [⟨"g1", none⟩]⟩, ⟨[], true⟩) ∧
    "groups" ≠ "node_templates" := by
  constructor
  · rfl
  · decide

/-- C2 amended: for a target list [t1, t2] where t1 names an existing
group and t2 names no group, the group phase wins: the built Policy
has targets_type "groups" and its target list holds exactly the
groups named t1; the node-template phase runs only when no name in
the list matches any group. Group and node-template targets are never
mixed in one resolved list (target_objects is either a list of groups
or a list of node templates). -/
theorem policy_mixed_targets_amended (nts : List NodeTemplate)
    (groups : List Group) (pname t1 t2 : String) (st : CollectorState)
    (hg1 : ∃ g ∈ groups, g.name = t1)
    (hn2 : ∀ g ∈ groups, g.name ≠ t2) :
    buildPolicy nts groups pname (some [t1, t2]) st =
      Except.ok (some ⟨pname, "groups",
        PolicyTargets.groups (get_policy_groups groups [t1, t2])⟩, st) ∧
    (∀ g : Group, g ∈ get_policy_groups groups [t1, t2] ↔
      g ∈ groups ∧ g.name = t1) := by
  rcases hg1 with ⟨g1, hg1mem, hg1name⟩
  have hmem : g1 ∈ get_policy_groups groups [t1, t2] :=
    (mem_get_policy_groups groups [t1, t2] g1).mpr
      ⟨hg1mem, by rw [hg1name]; exact List.mem_cons_self t1 [t2]⟩
  have hnonempty : (get_policy_groups groups [t1, t2]).isEmpty = false := by
    cases hgp : get_policy_groups groups [t1, t2] with
    | nil => rw [hgp] at hmem; exact absurd hmem (List.not_mem_nil g1)
    | cons a l => rfl
  constructor
  · simp only [buildPolicy]
    rw [if_pos (show 1 ≤ ([t1, t2] : List String).length by simp)]
    simp only [hnonempty]
    rfl
  · intro g
    rw [mem_get_policy_groups groups [t1, t2] g]
    constructor
    · rintro ⟨hg, hname⟩
      rcases List.mem_cons.mp hname with h1 | h2
      · exact ⟨hg, h1⟩
      · have : g.name = t2 := by simpa using h2
        exact absurd this (hn2 g hg)
    · rintro ⟨hg, hname⟩
      exact ⟨hg, by rw [hname]; exact List.mem_cons_self t1 [t2]⟩

/-- Witness for the C2 amended theorem at the counterexample input. -/
theorem policy_mixed_targets_amended_witness :
    buildPolicy [⟨"n1"⟩] [⟨"g1", none⟩] "p" (some ["g1", "n1"]) ⟨[], true⟩ =
      Except.ok (some ⟨"p", "groups",
        PolicyTargets.groups (get_policy_groups [⟨"g1", none⟩]
          ["g1", "n1"])⟩, ⟨[], true⟩) ∧
    (∀ g : Group, g ∈ get_policy_groups [⟨"g1", none⟩] ["g1", "n1"] ↔
      g ∈ [(⟨"g1", none⟩ : Group)] ∧ g.name = "g1") :=
  policy_mixed_targets_amended [⟨"n1"⟩] [⟨"g1", none⟩] "p" "g1" "n1"
    ⟨[], true⟩ (by decide) (by decide)

/-- C8: a policies entry whose mapping has no targets key, or whose
targets list is empty, contributes no Policy to the built list,
records no exception, and leaves the rest of the build unchanged. -/
theorem policy_without_targets_skipped (nts : List NodeTemplate)
    (groups : List Group) (pname : String) (rest : List PolicyTpl)
    (st : CollectorState) :
    policiesBuild nts groups (⟨pname, none⟩ :: rest) st =
      policiesBuild nts groups rest st ∧
    policiesBuild nts groups (⟨pname, some []⟩ :: rest) st =
      policiesBuild nts groups rest st := by
  constructor
  · show (match policiesBuild nts groups rest st with
      | Except.error err => Except.error err
      | Except.ok (ps, st') => Except.ok (ps, st')) =
      policiesBuild nts groups rest st
    cases policiesBuild nts groups rest st with
    | error err => rfl
    | ok p => rfl
  · show (match policiesBuild nts groups rest st with
      | Except.error err => Except.error err
      | Except.ok (ps, st') => Except.ok (ps, st')) =
      policiesBuild nts groups rest st
    cases policiesBuild nts groups rest st with
    | error err => rfl
    | ok p => rfl

/-- Appending an InvalidSchemaError to a collecting collector whose
entries are all InvalidSchemaError never raises, keeps every stored
entry, and afterwards the appended exception is stored (when an entry
with the same message was already stored, that entry is it). -/
theorem runAppend_invalidSchema (st : CollectorState) (msg : String)
    (hcol : st.collecting = true)
    (hall : ∀ ex ∈ st.exceptions, ex.kind = ExcKind.InvalidSchemaError) :
    ∃ st', runAppend st (invalidSchemaError msg) = (st', none) ∧
      st'.collecting = true ∧
      invalidSchemaError msg ∈ st'.exceptions ∧
      ∀ ex ∈ st.exceptions, ex ∈ st'.exceptions := by
  by_cases hc : contains st (invalidSchemaError msg)
  · refine ⟨st, ?_, hcol, ?_, fun ex hex => hex⟩
    · simp [runAppend, appendException, hc, hcol]
    · rcases List.any_eq_true.mp hc with ⟨ex, hex, hbeq⟩
      have hmsg : ex.message = msg := by
        simpa [excStr, invalidSchemaError] using hbeq
      have hex' : ex = invalidSchemaError msg := by
        cases ex with
        | mk k m =>
          have hk : k = ExcKind.InvalidSchemaError := hall ⟨k, m⟩ hex
          simp only at hmsg
          rw [invalidSchemaError, hk, hmsg]
      exact hex' ▸ hex
  · refine ⟨⟨st.exceptions ++ [invalidSchemaError msg], true⟩, ?_, rfl, ?_, ?_⟩
    · simp [runAppend, appendException, hc, hcol]
    · exact List.mem_append.mpr (Or.inr (List.mem_singleton.mpr rfl))
    · exact fun ex hex => List.mem_append.mpr (Or.inl hex)

theorem typeCheckedState_collecting (name : String)
    (schema : List (String × PyVal)) :
    (typeCheckedState name schema).collecting = true := by
  unfold typeCheckedState
  by_cases h : (schema.lookup "type").isSome
  · rw [if_pos h]
  · rw [if_neg h]

theorem typeCheckedState_kinds (name : String)
    (schema : List (String × PyVal)) :
    ∀ ex ∈ (typeCheckedState name schema).exceptions,
      ex.kind = ExcKind.InvalidSchemaError := by
  unfold typeCheckedState
  by_cases h : (schema.lookup "type").isSome
  · rw [if_pos h]
    intro ex hex
    exact absurd hex (List.not_mem_nil ex)
  · rw [if_neg h]
    intro ex hex
    have hx : ex = invalidSchemaError (typeMissingMsg name) := by simpa using hex
    rw [hx, invalidSchemaError]

theorem propertyDefInit_eq (name : String) (schema : List (String × PyVal)) :
    PropertyDef.init name schema ⟨[], true⟩ =
      match schema.lookup "required" with
      | none => (typeCheckedState name schema, none)
      | some (PyVal.pybool _) => (typeCheckedState name schema, none)
      | some (PyVal.pystr s) =>
        if VALID_REQUIRED_VALUES.contains s.toLower then
          (typeCheckedState name schema, none)
        else runAppend (typeCheckedState name schema)
          (invalidSchemaError (requiredInvalidMsg name s))
      | some (PyVal.pyint _) =>
        (typeCheckedState name schema, some Err.attributeError) := by
  cases htype : schema.lookup "type" with
  | none =>
    unfold PropertyDef.init typeCheckedState
    rw [htype]
    rfl
  | some v =>
    unfold PropertyDef.init typeCheckedState
    rw [htype]
    rfl

/-- C7 counterexample: a schema whose required value is present, not
a boolean and not one of the literal strings — the integer 5 — makes
the constructor raise AttributeError (from calling lower() on it),
and no InvalidSchemaError is recorded: the collector still holds no
exception at all. -/
theorem property_def_required_nonstring_counterexample :
    PropertyDef.init "p"
        [("type", PyVal.pystr "string"), ("required", PyVal.pyint 5)]
        ⟨[], true⟩ =
      (⟨[], true⟩, some Err.attributeError) := by
  rfl

/-- C7 amended: for a PropertyDef constructed with a schema, from a
fresh collecting collector: (1) when the schema lacks a type key, an
InvalidSchemaError with the must-have-a-type message is recorded;
(2) when the required value is a string whose lowercase is not among
the literals "true"/"false", an InvalidSchemaError with the
invalid-value message is recorded and nothing is raised; (3) when the
required value is present and neither a boolean nor a string, the
constructor raises AttributeError instead of recording an
InvalidSchemaError; (4) when the required value is a boolean or one
of the literal strings (or absent), nothing is raised and nothing is
recorded beyond the possible type-key error. -/
theorem property_def_schema_errors (name : String)
    (schema : List (String × PyVal)) :
    (schema.lookup "type" = none →
      invalidSchemaError (typeMissingMsg name) ∈
        (PropertyDef.init name schema ⟨[], true⟩).1.exceptions) ∧
    (∀ s, schema.lookup "required" = some (PyVal.pystr s) →
      VALID_REQUIRED_VALUES.contains s.toLower = false →
      (PropertyDef.init name schema ⟨[], true⟩).2 = none ∧
      invalidSchemaError (requiredInvalidMsg name s) ∈
        (PropertyDef.init name schema ⟨[], true⟩).1.exceptions) ∧
    (∀ n : Int, schema.lookup "required" = some (PyVal.pyint n) →
      (PropertyDef.init name schema ⟨[], true⟩).2 = some Err.attributeError) ∧
    ((∀ v, schema.lookup "required" = some v →
        (∃ b, v = PyVal.pybool b) ∨
        (∃ s, v = PyVal.pystr s ∧
          VALID_REQUIRED_VALUES.contains s.toLower = true)) →
      PropertyDef.init name schema ⟨[], true⟩ =
        (typeCheckedState name schema, none)) := by
  have hinit := propertyDefInit_eq name schema
  refine ⟨?_, ?_, ?_, ?_⟩
  · intro htype
    have htmem : invalidSchemaError (typeMissingMsg name) ∈
        (typeCheckedState name schema).exceptions := by
      unfold typeCheckedState
      rw [htype]
      simp
    rw [hinit]
    cases hreq : schema.lookup "required" with
    | none => exact htmem
    | some v =>
      cases v with
      | pybool b => exact htmem
      | pyint n => exact htmem
      | pystr s =>
        by_cases hlit : VALID_REQUIRED_VALUES.contains s.toLower = true
        · show invalidSchemaError (typeMissingMsg name) ∈
            ((if VALID_REQUIRED_VALUES.contains s.toLower then
                (typeCheckedState name schema, (none : Option Err))
              else runAppend (typeCheckedState name schema)
                (invalidSchemaError (requiredInvalidMsg name s))).1).exceptions
          rw [if_pos hlit]
          exact htmem
        · show invalidSchemaError (typeMissingMsg name) ∈
            ((if VALID_REQUIRED_VALUES.contains s.toLower then
                (typeCheckedState name schema, (none : Option Err))
              else runAppend (typeCheckedState name schema)
                (invalidSchemaError (requiredInvalidMsg name s))).1).exceptions
          rw [if_neg hlit]
          rcases runAppend_invalidSchema (typeCheckedState name schema)
              (requiredInvalidMsg name s)
              (typeCheckedState_collecting name schema)
              (typeCheckedState_kinds name schema) with
            ⟨st', hrun, _, _, hkeep⟩
          rw [hrun]
          exact hkeep (invalidSchemaError (typeMissingMsg name)) htmem
  · intro s hreq hlit
    have hlit' : ¬ VALID_REQUIRED_VALUES.contains s.toLower = true := by
      rw [hlit]
      exact Bool.false_ne_true
    rcases runAppend_invalidSchema (typeCheckedState name schema)
        (requiredInvalidMsg name s)
        (typeCheckedState_collecting name schema)
        (typeCheckedState_kinds name schema) with
      ⟨st', hrun, _, hmem, _⟩
    constructor
    · rw [hinit, hreq]
      show (if VALID_REQUIRED_VALUES.contains s.toLower then
          (typeCheckedState name schema, (none : Option Err))
        else runAppend (typeCheckedState name schema)
          (invalidSchemaError (requiredInvalidMsg name s))).2 = none
      rw [if_neg hlit', hrun]
    · rw [hinit, hreq]
      show invalidSchemaError (requiredInvalidMsg name s) ∈
        ((if VALID_REQUIRED_VALUES.contains s.toLower then
            (typeCheckedState name schema, (none : Option Err))
          else runAppend (typeCheckedState name schema)
            (invalidSchemaError (requiredInvalidMsg name s))).1).exceptions
      rw [if_neg hlit', hrun]
      exact hmem
  · intro n hreq
    rw [hinit, hreq]
  · intro hvalid
    rw [hinit]
    cases hreq : schema.lookup "required" with
    | none => rfl
    | some v =>
      rcases hvalid v hreq with ⟨b, hb⟩ | ⟨s, hs, hlit⟩
      · rw [hb]
      · rw [hs]
        show (if VALID_REQUIRED_VALUES.contains s.toLower then
            (typeCheckedState name schema, (none : Option Err))
          else runAppend (typeCheckedState name schema)
            (invalidSchemaError (requiredInvalidMsg name s))) =
          (typeCheckedState name schema, none)
        rw [if_pos hlit]

/-- Witness for the C7 amended theorem at a schema with a type key
and an invalid string required value. -/
theorem property_def_schema_errors_witness :
    ((([("type", PyVal.pystr "string"),
        ("required", PyVal.pystr "maybe")] : List (String × PyVal)).lookup
          "type" = none →
      invalidSchemaError (typeMissingMsg "p") ∈
        (PropertyDef.init "p" [("type", PyVal.pystr "string"),
          ("required", PyVal.pystr "maybe")] ⟨[], true⟩).1.exceptions) ∧
    (∀ s, ([("type", PyVal.pystr "string"),
        ("required", PyVal.pystr "maybe")] : List (String × PyVal)).lookup
          "required" = some (PyVal.pystr s) →
      VALID_REQUIRED_VALUES.contains s.toLower = false →
      (PropertyDef.init "p" [("type", PyVal.pystr "string"),
        ("required", PyVal.pystr "maybe")] ⟨[], true⟩).2 = none ∧
      invalidSchemaError (requiredInvalidMsg "p" s) ∈
        (PropertyDef.init "p" [("type", PyVal.pystr "string"),
          ("required", PyVal.pystr "maybe")] ⟨[], true⟩).1.exceptions) ∧
    (∀ n : Int, ([("type", PyVal.pystr "string"),
        ("required", PyVal.pystr "maybe")] : List (String × PyVal)).lookup
          "required" = some (PyVal.pyint n) →
      (PropertyDef.init "p" [("type", PyVal.pystr "string"),
        ("required", PyVal.pystr "maybe")] ⟨[], true⟩).2 =
          some Err.attributeError) ∧
    ((∀ v, ([("type", PyVal.pystr "string"),
        ("required", PyVal.pystr "maybe")] : List (String × PyVal)).lookup
          "required" = some v →
        (∃ b, v = PyVal.pybool b) ∨
        (∃ s, v = PyVal.pystr s ∧
          VALID_REQUIRED_VALUES.contains s.toLower = true)) →
      PropertyDef.init "p" [("type", PyVal.pystr "string"),
          ("required", PyVal.pystr "maybe")] ⟨[], true⟩ =
        (typeCheckedState "p" [("type", PyVal.pystr "string"),
          ("required", PyVal.pystr "maybe")], none))) :=
  property_def_schema_errors "p"
    [("type", PyVal.pystr "string"), ("required", PyVal.pystr "maybe")]

theorem requiredLoop_iff : ∀ sch : List (String × PyVal),
    requiredLoop sch = true ↔
      ∃ p ∈ sch, p.1 = "required" ∧ pyTruthy p.2 = true
  | [] => by simp [requiredLoop]
  | (k, v) :: rest => by
    by_cases hk : (k == "required" && pyTruthy v) = true
    · have hk' : k = "required" ∧ pyTruthy v = true := by simpa using hk
      constructor
      · intro _
        exact ⟨(k, v), List.mem_cons_self _ _, hk'⟩
      · intro _
        show (if (k == "required" && pyTruthy v) = true then true
          else requiredLoop rest) = true
        rw [if_pos hk]
    · have hstep : requiredLoop ((k, v) :: rest) = requiredLoop rest := by
        show (if (k == "required" && pyTruthy v) = true then true
          else requiredLoop rest) = requiredLoop rest
        rw [if_neg hk]
      rw [hstep, requiredLoop_iff rest]
      constructor
      · rintro ⟨p, hp, hpk, hpv⟩
        exact ⟨p, List.mem_cons_of_mem _ hp, hpk, hpv⟩
      · rintro ⟨p, hp, hpk, hpv⟩
        rcases List.mem_cons.mp hp with hhead | htail
        · exfalso
          apply hk
          rw [hhead] at hpk hpv
          simp only at hpk hpv
          simp [hpk, hpv]
        · exact ⟨p, htail, hpk, hpv⟩

/-- C10: PropertyDef.required returns True exactly when the schema
mapping holds a required key with a truthy value; it returns False
when the schema is None or empty or has no required key, and it
returns True for the string value "false" (a non-empty string is
truthy) even though the constructor accepts "false" as a valid
required literal. -/
theorem property_def_required_truthy :
    (∀ sch : List (String × PyVal),
      PropertyDef.required (some sch) = true ↔
        ∃ p ∈ sch, p.1 = "required" ∧ pyTruthy p.2 = true) ∧
    PropertyDef.required none = false ∧
    PropertyDef.required (some []) = false ∧
    (∀ sch : List (String × PyVal),
      ("required", PyVal.pystr "false") ∈ sch →
      PropertyDef.required (some sch) = true) := by
  have hmain : ∀ sch : List (String × PyVal),
      PropertyDef.required (some sch) = true ↔
        ∃ p ∈ sch, p.1 = "required" ∧ pyTruthy p.2 = true := by
    intro sch
    cases sch with
    | nil => simp [PropertyDef.required]
    | cons hd tl => exact requiredLoop_iff (hd :: tl)
  refine ⟨hmain, rfl, rfl, ?_⟩
  intro sch hmem
  exact (hmain sch).mpr ⟨("required", PyVal.pystr "false"), hmem, rfl, rfl⟩

end ToscaParser


